import Mathlib

/-!
Shallow embedding of the job admission, tracking and polling engine of
`gofilerd` (src/main.go), together with proofs about the spec's claims.

Modelling conventions:
* Go `time.Time` and `time.Duration` are modelled as `Nat` (an abstract
  tick count); `t.After(u)` is `u < t` and `t.Add(d)` is `t + d`.
* The external `gofiler.Profile` artifact and Go `error` values are
  treated as payloads: a profile is an abstract `String` payload and an
  error is an `Option String` (`none` = nil error).
* The Go map `map[string]job` is modelled as an association list with
  distinct keys (Go maps cannot hold a key twice; `put` only ever
  inserts an absent key, so the model preserves this).  A *nil* map —
  the zero value of `jobMap` before the first `put` — is modelled as
  `none`, an initialized map as `some entries`.
* The result channel (`make(chan result)`, unbuffered) is modelled by
  the state the poller can observe: no sender ready, a sender offering
  one value, or closed.  Receiving from a closed Go channel yields the
  zero value of the element type immediately.
* Mutex acquisition is not modelled: each Go method runs under the
  table's lock, so each is embedded as one atomic function from state
  to state.
-/

/-- The profile artifact produced by the external `gofiler.Run`
computation, abstracted to an opaque payload. -/
abbrev GofilerProfile : Type := String

/-- The zero value of `gofiler.Profile` (what a receive on a closed
channel yields for the profile component). -/
def GofilerProfile.zero : GofilerProfile := ""

/-- Go `error` values, abstracted: `none` is the nil error, `some msg`
a non-nil error (including deadline-exceeded). -/
abbrev GoError := Option String

/-- Go `type result struct { profile gofiler.Profile; err error }`
(src/main.go): the single value the Job Runner delivers. -/
structure GoResult where
  profile : GofilerProfile
  err : GoError
deriving DecidableEq, Repr

/-- The zero value of `result` — received from a closed channel. -/
def GoResult.zero : GoResult := ⟨GofilerProfile.zero, none⟩

/-- Observable state of the unbuffered result channel from the
receiver's side: `empty` = open, no sender ready (a receive blocks);
`ready r` = a sender is blocked offering `r` (a receive succeeds at
once); `closed` = the channel was closed (a receive yields the zero
value at once). -/
inductive ChanState where
  | empty : ChanState
  | ready : GoResult → ChanState
  | closed : ChanState
deriving DecidableEq, Repr

/-- Go `type job struct { pending <-chan result; language string;
start time.Time }` (src/main.go). -/
structure Job where
  pending : ChanState
  language : String
  start : Nat
deriving DecidableEq, Repr

/-- The zero value of `job`, returned by a lookup miss on a Go map. -/
def Job.zero : Job := ⟨ChanState.empty, "", 0⟩

/-- Go `type jobMap struct { m map[string]job; l sync.RWMutex }`
(src/main.go).  `m = none` models the nil map the struct starts with;
`m = some l` an initialized map with entries `l`. -/
structure JobMap where
  m : Option (List (String × Job))
deriving DecidableEq, Repr

/-- The entries currently held by the table (a nil map holds none). -/
def JobMap.entries (jm : JobMap) : List (String × Job) :=
  jm.m.getD []

/-- Go `len(m.m)`: the number of entries in the table. -/
def JobMap.size (jm : JobMap) : Nat :=
  jm.entries.length

/-- Whether `token` is a key of the table (`_, ok := m.m[token]`). -/
def JobMap.hasToken (jm : JobMap) (token : String) : Bool :=
  (jm.entries.lookup token).isSome

/-- Go `func (m *jobMap) get(token string) (job, bool)` (src/main.go):
look the token up under the read lock; a miss (or a nil map) returns
the zero record and `false`. -/
def JobMap.get (jm : JobMap) (token : String) : Job × Bool :=
  match jm.m with
  | none => (Job.zero, false)
  | some l =>
    match l.lookup token with
    | some j => (j, true)
    | none => (Job.zero, false)

/-- Go `func (m *jobMap) del(token string)` (src/main.go): delete the
entry under the write lock; `delete` on a nil map is a no-op and the
map stays nil. -/
def JobMap.del (jm : JobMap) (token : String) : JobMap :=
  match jm.m with
  | none => jm
  | some l => ⟨some (l.filter (fun p => p.1 != token))⟩

/-- Constant `putJobOK` (src/main.go, `iota` constant 0). -/
def putJobOK : Nat := 0
/-- Constant `putJobNotUnique` (src/main.go, `iota` constant 1). -/
def putJobNotUnique : Nat := 1
/-- Constant `putJobFull` (src/main.go, `iota` constant 2). -/
def putJobFull : Nat := 2

/-- Go `func (m *jobMap) put(language, token string, pchan <-chan result)
int` (src/main.go).  Under the write lock: initialize the nil map,
return `putJobFull` if `len(m.m) >= int(maxJobs)`, return
`putJobNotUnique` if the token is already a key, otherwise insert
`job{pending: pchan, language: language, start: time.Now()}` and
return `putJobOK`.  `maxJobs` (the `-max-jobs` flag) and the current
time are passed explicitly. -/
def JobMap.put (maxJobs : Nat) (jm : JobMap) (language token : String)
    (pchan : ChanState) (now : Nat) : Nat × JobMap :=
  let l := jm.m.getD []
  if maxJobs ≤ l.length then
    (putJobFull, ⟨some l⟩)
  else
    match l.lookup token with
    | some _ => (putJobNotUnique, ⟨some l⟩)
    | none => (putJobOK, ⟨some ((token, ⟨pchan, language, now⟩) :: l)⟩)

/-- Go `func (m *jobMap) clean()` (src/main.go).  Under the write lock,
collect every token whose job satisfies
`now.After(job.start.Add(delta))` — that is `job.start + delta < now` —
and delete those entries.  Since the keys of a Go map are distinct,
deleting the collected keys is the same as keeping exactly the entries
that do not qualify, which is how it is written here.  `delta` is
`time.Duration(timeout) * time.Minute` and `now` is `time.Now()`,
passed explicitly; a range over a nil map visits nothing, so a nil map
stays nil. -/
def JobMap.clean (delta : Nat) (jm : JobMap) (now : Nat) : JobMap :=
  match jm.m with
  | none => jm
  | some l => ⟨some (l.filter (fun p => !(decide (p.2.start + delta < now))))⟩

/-- Type `api.Token` (src/api/api.go): the opaque job handle. -/
structure ApiToken where
  id : String
deriving DecidableEq, Repr

/-- Type `api.Profile` (src/api/api.go): the poll response body. -/
structure ApiProfile where
  profile : GofilerProfile
  token : ApiToken
  language : String
  status : String
  done : Bool
deriving DecidableEq, Repr

/-- Constant `http.StatusNotFound`. -/
def statusNotFound : Nat := 404
/-- Constant `http.StatusServiceUnavailable`. -/
def statusServiceUnavailable : Nat := 503

/-- The value a `/profile` GET handler invocation produces, as seen by
`handle` (src/main.go): an `int` http status, a non-nil `error`
(rendered as a 500), an `api.Profile` body — or no value at all,
because the handler is blocked inside its `select` waiting on the
runner. -/
inductive PollOutcome where
  | status : Nat → PollOutcome
  | errVal : String → PollOutcome
  | profileResp : ApiProfile → PollOutcome
  | blocked : PollOutcome
deriving DecidableEq, Repr

/-- Go `func getProfile(token api.Token) interface{}` (src/main.go).

The handler looks the token up; a miss returns
`http.StatusNotFound`.  Then it enters `select { case p :=
<-job.pending: ... }`.  This `select` has a single case and **no
`default` clause**, so it blocks until the receive can proceed: when a
sender is ready the delivered value is consumed, when the channel is
closed the zero value is received, and when the channel is open with
no sender the handler suspends (`PollOutcome.blocked`).  Both branches
of the case body `return`, so the trailing
"profile is not available yet" code of the source (the `Done: false`
placeholder response) is unreachable and has no counterpart here.
In the case body, `defer func() { jobs.del(token.ID) }()` removes the
record; then a non-nil `p.err` is returned as the error, otherwise the
`api.Profile` with `Status: "done"` and `Done: true` is returned. -/
def getProfile (jobs : JobMap) (token : ApiToken) : PollOutcome × JobMap :=
  match jobs.get token.id with
  | (_, false) => (PollOutcome.status statusNotFound, jobs)
  | (j, true) =>
    match j.pending with
    | ChanState.empty => (PollOutcome.blocked, jobs)
    | ChanState.ready p =>
      let jobs' := jobs.del token.id
      match p.err with
      | some e => (PollOutcome.errVal e, jobs')
      | none =>
        (PollOutcome.profileResp
          ⟨p.profile, token, j.language, "done", true⟩, jobs')
    | ChanState.closed =>
      let jobs' := jobs.del token.id
      let p := GoResult.zero
      (PollOutcome.profileResp
        ⟨p.profile, token, j.language, "done", true⟩, jobs')

/-- What one invocation of the submission handler produces: the
response value, the job table it leaves behind, and the token of the
runner it spawned with `go runProfiler(...)`, if any. -/
structure ProfileResult where
  outcome : PollOutcome
  table : JobMap
  runnerStartedFor : Option String
deriving DecidableEq, Repr

/-- The retry loop of `func profile(path string, request api.Request)
interface{}` (src/main.go): repeatedly draw the next token from
`generateRandomID` and call `put`.  `putJobOK` starts the runner and
returns the token; `putJobFull` returns
`http.StatusServiceUnavailable`; `putJobNotUnique` (the `switch`'s
silent fall-through) loops again.  The stream of generated random IDs
is passed explicitly as a list of candidates; an exhausted list
(`none`) models a loop that never exits. -/
def profileLoop (maxJobs : Nat) (jobs : JobMap) (language : String)
    (pchan : ChanState) (now : Nat) : List String → Option ProfileResult
  | [] => none
  | tok :: rest =>
    let r := JobMap.put maxJobs jobs language tok pchan now
    if r.1 = putJobOK then
      some ⟨PollOutcome.profileResp ⟨GofilerProfile.zero, ⟨tok⟩, "", "", false⟩,
            r.2, some tok⟩
    else if r.1 = putJobFull then
      some ⟨PollOutcome.status statusServiceUnavailable, r.2, none⟩
    else
      profileLoop maxJobs r.2 language pchan now rest

/-- Go `func profile(path string, request api.Request) interface{}`
(src/main.go): make a fresh unbuffered result channel, run the
reclamation sweep `jobs.clean()`, then enter the token retry loop.
On success the Go code returns the `api.Token`; here the accepted
token is carried both in the outcome and in `runnerStartedFor`. -/
def profileSubmit (maxJobs delta : Nat) (jobs : JobMap) (language : String)
    (now : Nat) (gen : List String) : Option ProfileResult :=
  profileLoop maxJobs (JobMap.clean delta jobs now) language
    ChanState.empty now gen

/-- Operations the Job Runner performs on its result channel. -/
inductive ChanOp where
  | send : GoResult → ChanOp
  | close : ChanOp
deriving DecidableEq, Repr

/-- Go `defer close(pchan)` (src/main.go): the close runs when the
function body has finished, i.e. after every channel operation of the
body. -/
def withDeferredClose (body : List ChanOp) : List ChanOp :=
  body ++ [ChanOp.close]

/-- Go `func runProfiler(config string, tokens []gofiler.Token, pchan
chan<- result)` (src/main.go), as the sequence of operations it
performs on `pchan`.  The body calls `gofiler.Run` under a deadline
context — its outcome `(p, err)`, success or error (including
deadline-exceeded), is the parameter here — and then performs the one
send `pchan <- result{profile: p, err: err}`; the deferred close
follows. -/
def runProfilerTrace (p : GofilerProfile) (err : GoError) : List ChanOp :=
  withDeferredClose [ChanOp.send ⟨p, err⟩]

/-- How many sends a channel trace performs. -/
def sendCount (tr : List ChanOp) : Nat :=
  tr.countP (fun op => match op with
    | ChanOp.send _ => true
    | ChanOp.close => false)

/-- Predicate: `closedOnceAtEnd tr` holds when the trace closes the channel
exactly once, as its final operation — so nothing (in particular no
send) follows the close, and the close follows every send. -/
def closedOnceAtEnd (tr : List ChanOp) : Bool :=
  (tr.count ChanOp.close == 1) && (tr.getLast? == some ChanOp.close)

/-- The admission contract of `put` as the spec states it (§4.1), a
second definition written from the spec's words rather than from the
code, to be compared with `JobMap.put`: if current size ≥ capacity,
return `Full` without mutating state; else if the token is already
present, return `NotUnique` without mutating state; else insert
`{language, token, now(), result_source}` and return `OK`. -/
def putSpec (capacity : Nat) (jm : JobMap) (language token : String)
    (resultSource : ChanState) (now : Nat) : Nat × JobMap :=
  if capacity ≤ jm.size then
    (putJobFull, jm)
  else if jm.hasToken token then
    (putJobNotUnique, jm)
  else
    (putJobOK, ⟨some ((token, ⟨resultSource, language, now⟩) :: jm.entries)⟩)

/-- Job-table states reachable from the zero-value table (`jobs jobMap`,
a package-level variable, so its map starts nil) by any sequence of
`put`, `del` and `clean` calls — the only operations that mutate the
table. -/
inductive Reach (maxJobs delta : Nat) : JobMap → Prop where
  | init : Reach maxJobs delta ⟨none⟩
  | put (jm : JobMap) (language token : String) (pchan : ChanState) (now : Nat) :
      Reach maxJobs delta jm →
      Reach maxJobs delta (JobMap.put maxJobs jm language token pchan now).2
  | del (jm : JobMap) (token : String) :
      Reach maxJobs delta jm →
      Reach maxJobs delta (jm.del token)
  | clean (jm : JobMap) (now : Nat) :
      Reach maxJobs delta jm →
      Reach maxJobs delta (JobMap.clean delta jm now)

theorem lookup_filter_self_none (l : List (String × Job)) (token : String) :
    (l.filter (fun p => p.1 != token)).lookup token = none := by
  induction l with
  | nil => rfl
  | cons hd tl ih =>
    obtain ⟨k, v⟩ := hd
    by_cases h : k = token
    · rw [List.filter_cons_of_neg]
      · exact ih
      · simp [h]
    · rw [List.filter_cons_of_pos]
      · simp only [List.lookup]
        have ht : (token == k) = false :=
          beq_eq_false_iff_ne.mpr (fun e => h e.symm)
        rw [ht]
        exact ih
      · simp [bne_iff_ne, h]

theorem JobMap.get_del_self (jm : JobMap) (token : String) :
    (jm.del token).get token = (Job.zero, false) := by
  cases hm : jm.m with
  | none => simp [JobMap.del, JobMap.get, hm]
  | some l => simp [JobMap.del, JobMap.get, hm, lookup_filter_self_none]

theorem getProfile_miss (jobs : JobMap) (token : ApiToken)
    (h : jobs.get token.id = (Job.zero, false)) :
    getProfile jobs token = (PollOutcome.status statusNotFound, jobs) := by
  unfold getProfile
  rw [h]

theorem JobMap.size_del_le (jm : JobMap) (token : String) :
    (jm.del token).size ≤ jm.size := by
  cases hm : jm.m with
  | none => simp [JobMap.del, hm]
  | some l =>
    simp only [JobMap.del, hm, JobMap.size, JobMap.entries, Option.getD_some]
    exact List.length_filter_le _ _

theorem JobMap.size_clean_le (delta : Nat) (jm : JobMap) (now : Nat) :
    (JobMap.clean delta jm now).size ≤ jm.size := by
  cases hm : jm.m with
  | none => simp [JobMap.clean, hm]
  | some l =>
    simp only [JobMap.clean, hm, JobMap.size, JobMap.entries, Option.getD_some]
    exact List.length_filter_le _ _

theorem JobMap.put_size_le (maxJobs : Nat) (jm : JobMap)
    (language token : String) (pchan : ChanState) (now : Nat)
    (h : jm.size ≤ maxJobs) :
    (JobMap.put maxJobs jm language token pchan now).2.size ≤ maxJobs := by
  have hsz : jm.size = (jm.m.getD []).length := rfl
  unfold JobMap.put
  by_cases hfull : maxJobs ≤ (jm.m.getD []).length
  · simp only [hfull, if_true, JobMap.size, JobMap.entries, Option.getD_some]
    omega
  · simp only [hfull, if_false]
    cases hlk : (jm.m.getD []).lookup token with
    | some j =>
      simp only [JobMap.size, JobMap.entries, Option.getD_some]
      omega
    | none =>
      simp only [JobMap.size, JobMap.entries, Option.getD_some, List.length_cons]
      omega

/-- Claim C1: the spec says a poll on a known token whose result
channel has not yet produced a value returns immediately with
`Done = false` and a placeholder status, leaving the record in place.
The code's `select` in `getProfile` has a single receive case and no
`default` clause, so on an open channel with no sender it blocks
instead, and the placeholder branch after the `select` is unreachable:
at the concrete failing input (a table holding token "t" whose job is
still running) the handler produces no response at all. -/
theorem c1_pending_poll_blocks :
    getProfile ⟨some [("t", ⟨ChanState.empty, "lang", 0⟩)]⟩ ⟨"t"⟩
      = (PollOutcome.blocked,
         ⟨some [("t", ⟨ChanState.empty, "lang", 0⟩)]⟩) := by
  rfl

/-- Claim C2: starting from the zero-value table, every sequence of
`put`, `del` and `clean` operations keeps the number of entries at or
below the configured capacity `maxJobs`; and a `put` issued when the
table holds at least capacity entries returns `putJobFull` and leaves
the entries unchanged. -/
theorem c2_capacity_invariant (maxJobs delta : Nat) (jm : JobMap)
    (language token : String) (pchan : ChanState) (now : Nat)
    (h : Reach maxJobs delta jm) :
    jm.size ≤ maxJobs ∧
    (maxJobs ≤ jm.size →
      (JobMap.put maxJobs jm language token pchan now).1 = putJobFull ∧
      (JobMap.put maxJobs jm language token pchan now).2.entries
        = jm.entries) := by
  have hsize : jm.size ≤ maxJobs := by
    induction h with
    | init => simp [JobMap.size, JobMap.entries]
    | put jm' language' token' pchan' now' _ ih =>
      exact JobMap.put_size_le maxJobs jm' language' token' pchan' now' ih
    | del jm' token' _ ih =>
      exact le_trans (JobMap.size_del_le jm' token') ih
    | clean jm' now' _ ih =>
      exact le_trans (JobMap.size_clean_le delta jm' now') ih
  refine ⟨hsize, fun hfull => ?_⟩
  have hfull' : maxJobs ≤ (jm.m.getD []).length := hfull
  exact ⟨by simp [JobMap.put, hfull'], by simp [JobMap.put, hfull', JobMap.entries]⟩

/-- Witness for C2 at the initial (reachable) empty table with
capacity 1. -/
theorem c2_capacity_invariant_witness :
    (⟨none⟩ : JobMap).size ≤ 1 ∧
    (1 ≤ (⟨none⟩ : JobMap).size →
      (JobMap.put 1 ⟨none⟩ "lang" "t" ChanState.empty 0).1 = putJobFull ∧
      (JobMap.put 1 ⟨none⟩ "lang" "t" ChanState.empty 0).2.entries
        = (⟨none⟩ : JobMap).entries) :=
  c2_capacity_invariant 1 0 ⟨none⟩ "lang" "t" ChanState.empty 0 Reach.init

/-- Claim C3: `put` meets the admission contract of the spec (§4.1),
here stated as `putSpec`: at capacity it returns `Full` with the
entries untouched; on a duplicate token below capacity it returns
`NotUnique` with the entries untouched; otherwise it returns `OK`
having inserted the record `{language, token, now, channel}`.  Result
codes and observable entries agree in every state (the only
difference, deliberately not observable through `entries`, is that the
Go code also turns a nil map into an empty initialized map). -/
theorem c3_put_meets_admission_contract (maxJobs : Nat) (jm : JobMap)
    (language token : String) (pchan : ChanState) (now : Nat) :
    (JobMap.put maxJobs jm language token pchan now).1
      = (putSpec maxJobs jm language token pchan now).1 ∧
    (JobMap.put maxJobs jm language token pchan now).2.entries
      = (putSpec maxJobs jm language token pchan now).2.entries := by
  unfold JobMap.put putSpec JobMap.hasToken JobMap.size JobMap.entries
  by_cases hfull : maxJobs ≤ (jm.m.getD []).length
  · simp [hfull]
  · simp only [hfull, if_false]
    cases hlk : (jm.m.getD []).lookup token with
    | some j => simp [hlk]
    | none => simp [hlk]

/-- Claim C9: on a table whose underlying map was never initialized
(the nil map), `get` returns the zero record with `found = false`,
`del` is a no-op leaving the map nil, and only `put` initializes the
underlying map. -/
theorem c9_nil_map_operations_safe (maxJobs now : Nat)
    (language token : String) (pchan : ChanState) :
    JobMap.get ⟨none⟩ token = (Job.zero, false) ∧
    JobMap.del ⟨none⟩ token = ⟨none⟩ ∧
    ((JobMap.put maxJobs ⟨none⟩ language token pchan now).2).m.isSome
      = true := by
  refine ⟨rfl, rfl, ?_⟩
  simp only [JobMap.put]
  by_cases h0 : maxJobs = 0 <;> simp [h0]

/-- Claim C10: the capacity check of `put` runs before the uniqueness
check, so on a table at (or above) capacity `put` returns
`putJobFull` even when the token is already present — a full table
never reports `putJobNotUnique`. -/
theorem c10_full_checked_before_uniqueness (maxJobs : Nat) (jm : JobMap)
    (language token : String) (pchan : ChanState) (now : Nat)
    (hsize : maxJobs ≤ jm.size) (_hmem : jm.hasToken token = true) :
    (JobMap.put maxJobs jm language token pchan now).1 = putJobFull := by
  have hfull : maxJobs ≤ (jm.m.getD []).length := hsize
  simp [JobMap.put, hfull]

/-- Witness for C10: a table of capacity 1 holding token "t" rejects a
second `put` of the very same token with `putJobFull`. -/
theorem c10_full_checked_before_uniqueness_witness :
    (JobMap.put 1 ⟨some [("t", Job.zero)]⟩ "lang" "t"
      ChanState.empty 5).1 = putJobFull :=
  c10_full_checked_before_uniqueness 1 ⟨some [("t", Job.zero)]⟩ "lang" "t"
    ChanState.empty 5 (by decide) (by decide)

/-- Claim C4: polling a token whose job has completed (its result
channel holds the delivered value) returns the result when the runner
succeeded — an `api.Profile` with `Status = "done"`, `Done = true`,
the job's language and the delivered profile — or surfaces the
runner's error when it failed; in both cases the record is deleted, so
the very next poll of the same token (and hence every subsequent one,
the state being left unchanged) returns `http.StatusNotFound`. -/
theorem c4_completed_poll_delivered_then_not_found (jobs : JobMap)
    (token : ApiToken) (j : Job) (r : GoResult)
    (hget : jobs.get token.id = (j, true))
    (hready : j.pending = ChanState.ready r) :
    (getProfile jobs token).1
      = (match r.err with
         | some e => PollOutcome.errVal e
         | none =>
           PollOutcome.profileResp
             ⟨r.profile, token, j.language, "done", true⟩) ∧
    (getProfile jobs token).2 = jobs.del token.id ∧
    ((getProfile jobs token).2).get token.id = (Job.zero, false) ∧
    getProfile (getProfile jobs token).2 token
      = (PollOutcome.status statusNotFound, (getProfile jobs token).2) := by
  have hmain : getProfile jobs token
      = ((match r.err with
          | some e => PollOutcome.errVal e
          | none =>
            PollOutcome.profileResp
              ⟨r.profile, token, j.language, "done", true⟩),
         jobs.del token.id) := by
    unfold getProfile
    rw [hget]
    simp only [hready]
    cases r.err <;> rfl
  refine ⟨by rw [hmain], by rw [hmain], ?_, ?_⟩
  · rw [hmain]
    exact JobMap.get_del_self jobs token.id
  · rw [hmain]
    exact getProfile_miss (jobs.del token.id) token
      (JobMap.get_del_self jobs token.id)

/-- Witness for C4: a one-entry table whose job for token "t" has a
delivered successful result. -/
theorem c4_completed_poll_delivered_then_not_found_witness :
    (getProfile ⟨some [("t", ⟨ChanState.ready ⟨"P", none⟩, "lang", 0⟩)]⟩
        ⟨"t"⟩).1
      = (match (none : GoError) with
         | some e => PollOutcome.errVal e
         | none =>
           PollOutcome.profileResp ⟨"P", ⟨"t"⟩, "lang", "done", true⟩) ∧
    (getProfile ⟨some [("t", ⟨ChanState.ready ⟨"P", none⟩, "lang", 0⟩)]⟩
        ⟨"t"⟩).2
      = JobMap.del ⟨some [("t", ⟨ChanState.ready ⟨"P", none⟩, "lang", 0⟩)]⟩
          "t" ∧
    ((getProfile ⟨some [("t", ⟨ChanState.ready ⟨"P", none⟩, "lang", 0⟩)]⟩
        ⟨"t"⟩).2).get "t" = (Job.zero, false) ∧
    getProfile
        (getProfile ⟨some [("t", ⟨ChanState.ready ⟨"P", none⟩, "lang", 0⟩)]⟩
          ⟨"t"⟩).2 ⟨"t"⟩
      = (PollOutcome.status statusNotFound,
         (getProfile ⟨some [("t", ⟨ChanState.ready ⟨"P", none⟩, "lang", 0⟩)]⟩
           ⟨"t"⟩).2) :=
  c4_completed_poll_delivered_then_not_found
    ⟨some [("t", ⟨ChanState.ready ⟨"P", none⟩, "lang", 0⟩)]⟩
    ⟨"t"⟩ ⟨ChanState.ready ⟨"P", none⟩, "lang", 0⟩ ⟨"P", none⟩
    (by rfl) (by rfl)

/-- Claim C5: one `clean` sweep at time `now` with timeout window
`delta` keeps a table entry unchanged exactly when its age does not
exceed the window: the pair `(token, j)` is in the table after the
sweep iff it was there before and `j.start + delta < now` fails; in
particular every timed-out entry is absent afterwards and every other
entry survives untouched. -/
theorem c5_clean_keeps_exactly_fresh_entries (delta now : Nat)
    (jm : JobMap) (token : String) (j : Job) :
    ((token, j) ∈ (JobMap.clean delta jm now).entries ↔
      ((token, j) ∈ jm.entries ∧ ¬ (j.start + delta < now))) := by
  cases hm : jm.m with
  | none => simp [JobMap.clean, hm, JobMap.entries]
  | some l =>
    simp [JobMap.clean, hm, JobMap.entries, List.mem_filter]

theorem JobMap.eq_some_entries_of_hasToken (jm : JobMap) (token : String)
    (h : jm.hasToken token = true) : (⟨some jm.entries⟩ : JobMap) = jm := by
  obtain ⟨m⟩ := jm
  cases m with
  | none => simp [JobMap.hasToken, JobMap.entries] at h
  | some l => simp [JobMap.entries]

theorem profileLoop_cons (maxJobs : Nat) (jobs : JobMap) (language : String)
    (pchan : ChanState) (now : Nat) (tok : String) (rest : List String) :
    profileLoop maxJobs jobs language pchan now (tok :: rest)
      = (if maxJobs ≤ jobs.size then
           some ⟨PollOutcome.status statusServiceUnavailable,
                 ⟨some jobs.entries⟩, none⟩
         else if jobs.hasToken tok then
           profileLoop maxJobs ⟨some jobs.entries⟩ language pchan now rest
         else
           some ⟨PollOutcome.profileResp
                   ⟨GofilerProfile.zero, ⟨tok⟩, "", "", false⟩,
                 ⟨some ((tok, ⟨pchan, language, now⟩) :: jobs.entries)⟩,
                 some tok⟩) := by
  by_cases hfull : maxJobs ≤ (jobs.m.getD []).length
  · conv_rhs => rw [if_pos (show maxJobs ≤ jobs.size from hfull)]
    conv_lhs => rw [profileLoop]
    simp [JobMap.put, hfull, putJobOK, putJobFull, JobMap.entries]
  · conv_rhs => rw [if_neg (show ¬ maxJobs ≤ jobs.size from hfull)]
    cases hlk : (jobs.m.getD []).lookup tok with
    | some j =>
      conv_rhs =>
        rw [if_pos (show jobs.hasToken tok = true by
          simp [JobMap.hasToken, JobMap.entries, hlk])]
      conv_lhs => rw [profileLoop]
      simp only [JobMap.put, hfull, if_false, hlk]
      simp only [putJobOK, putJobNotUnique, putJobFull, JobMap.entries]
      norm_num
    | none =>
      conv_rhs =>
        rw [if_neg (show ¬ jobs.hasToken tok = true by
          simp [JobMap.hasToken, JobMap.entries, hlk])]
      conv_lhs => rw [profileLoop]
      simp only [JobMap.put, hfull, if_false, hlk]
      simp [putJobOK, JobMap.entries]

/-- Claim C6: the submission handler first runs the reclamation sweep
`clean`, then calls `put` on the first generated token: if the swept
table is at capacity it answers `http.StatusServiceUnavailable`
without starting a runner or creating a record; if the token collides
it retries the loop on the remaining candidates; otherwise it inserts
the record, starts the runner for the fresh token and returns that
token to the client. -/
theorem c6_submission_protocol (maxJobs delta now : Nat) (jm : JobMap)
    (language tok : String) (rest : List String) :
    profileSubmit maxJobs delta jm language now (tok :: rest)
      = (if maxJobs ≤ (JobMap.clean delta jm now).size then
           some ⟨PollOutcome.status statusServiceUnavailable,
                 ⟨some (JobMap.clean delta jm now).entries⟩, none⟩
         else if (JobMap.clean delta jm now).hasToken tok then
           profileLoop maxJobs ⟨some (JobMap.clean delta jm now).entries⟩
             language ChanState.empty now rest
         else
           some ⟨PollOutcome.profileResp
                   ⟨GofilerProfile.zero, ⟨tok⟩, "", "", false⟩,
                 ⟨some ((tok, ⟨ChanState.empty, language, now⟩)
                   :: (JobMap.clean delta jm now).entries)⟩,
                 some tok⟩) := by
  unfold profileSubmit
  exact profileLoop_cons maxJobs (JobMap.clean delta jm now) language
    ChanState.empty now tok rest

/-- Claim C7: when the swept table is below capacity and the stream of
generated candidate tokens contains a fresh one, the silent
`NotUnique` retry loop terminates with an admission under the first
fresh candidate — a token that is not among the live tokens — having
surfaced no collision: finitely many duplicates are skipped without
changing the table and the runner is started for the fresh token. -/
theorem c7_collision_retry_reaches_fresh_token (maxJobs : Nat)
    (m0 : JobMap) (language : String) (pchan : ChanState) (now : Nat)
    (gen : List String) (tok : String)
    (hsize : m0.size < maxJobs)
    (hfind : gen.find? (fun t => !(m0.hasToken t)) = some tok) :
    profileLoop maxJobs m0 language pchan now gen
      = some ⟨PollOutcome.profileResp
                ⟨GofilerProfile.zero, ⟨tok⟩, "", "", false⟩,
              ⟨some ((tok, ⟨pchan, language, now⟩) :: m0.entries)⟩,
              some tok⟩ ∧
    m0.hasToken tok = false := by
  induction gen with
  | nil => cases hfind
  | cons t rest ih =>
    by_cases ht : m0.hasToken t = true
    · have hfind' : rest.find? (fun t => !(m0.hasToken t)) = some tok := by
        simpa [List.find?_cons, ht] using hfind
      have hstep := profileLoop_cons maxJobs m0 language pchan now t rest
      rw [if_neg (by omega), if_pos ht,
        JobMap.eq_some_entries_of_hasToken m0 t ht] at hstep
      rw [hstep]
      exact ih hfind'
    · have htok : tok = t := by
        have := hfind
        simp [List.find?_cons, ht] at this
        exact this.symm
      subst htok
      have hstep := profileLoop_cons maxJobs m0 language pchan now tok rest
      rw [if_neg (by omega), if_neg (by simp [ht])] at hstep
      exact ⟨hstep, by simpa using ht⟩

/-- Witness for C7: capacity 2, a table holding token "a", candidate
stream ["a", "b"]: the duplicate "a" is skipped silently and "b", the
first fresh candidate, is admitted. -/
theorem c7_collision_retry_reaches_fresh_token_witness :
    profileLoop 2 ⟨some [("a", Job.zero)]⟩ "lang" ChanState.empty 7
        ["a", "b"]
      = some ⟨PollOutcome.profileResp
                ⟨GofilerProfile.zero, ⟨"b"⟩, "", "", false⟩,
              ⟨some [("b", ⟨ChanState.empty, "lang", 7⟩),
                     ("a", Job.zero)]⟩,
              some "b"⟩ ∧
    JobMap.hasToken ⟨some [("a", Job.zero)]⟩ "b" = false :=
  c7_collision_retry_reaches_fresh_token 2 ⟨some [("a", Job.zero)]⟩
    "lang" ChanState.empty 7 ["a", "b"] "b" (by decide) (by decide)

/-- Claim C8: one run of the Job Runner performs exactly one send on
the result channel — the single outcome of the external computation,
success or error — and closes the channel exactly once, as the final
operation after that send: it never sends twice and never closes
before sending. -/
theorem c8_runner_single_send_then_close (p : GofilerProfile)
    (err : GoError) :
    sendCount (runProfilerTrace p err) = 1 ∧
    closedOnceAtEnd (runProfilerTrace p err) = true := by
  constructor
  · rfl
  · rfl
